import Mathlib

/-!
Verification of the async-call tracking core of `hinge-health/react-all-day`
(`src/redux/actions/async.ts`).

The development shallowly embeds the module's state and operations:

* JS objects keyed by strings (`pendingCleanCallbacks`, `asyncCallCache`)
  become functions `String → Option _`;
* the Redux status store (whose reducer lives outside the sources at hand)
  is modelled from the spec's state machine (§4.3/§4.4) as a function
  `String → AsyncRecord`;
* promises become opaque numeric handles; the continuation chain that
  `startAsync` attaches (`then`/`catch`/`finally`) is run by an explicit
  `settleChain` step when the underlying promise settles;
* `setTimeout`/`clearTimeout` become a list of live `Timer` values plus the
  handle map, so "an armed timer that is no longer referenced by the map"
  is representable, exactly as in the JS runtime.

Public operations plus environment events (a promise settling, a timer
firing) form a small-step semantics `step`; `run` folds a list of events
from the initial state while accumulating the trace of dispatched actions.
-/

namespace ReactAllDay

/-- Modelled from the spec: the status enumeration of the Status Store
(`AsyncStatus` is imported by the source from `../reducers/async`, which is
not among the sources; the spec §4.3 lists its five states). -/
inductive AsyncStatus
  | NOT_STARTED
  | PENDING
  | RESOLVED
  | REJECTED
  | FINISHED
deriving DecidableEq, Repr

/-- A JavaScript `Error`, reduced to its message. -/
structure JsError where
  message : String
deriving DecidableEq, Repr

/-- The action type constants imported from `../constants`. -/
inductive ActionType
  | ASYNC_FINISHED
  | ASYNC_REJECTED
  | ASYNC_RESOLVED
  | ASYNC_STARTED
  | CLEAN_ASYNC_STATE
  | RELEASE_ASYNC_STATE
  | RESET_ASYNC_STATE
  | RETAIN_ASYNC_STATE
deriving DecidableEq, Repr

/-- A dispatched action: `{ type, meta: { asyncId }, payload?, error? }`
(`AsyncMetaAction` / `AsyncErrorAction` in the source). -/
structure Action where
  type : ActionType
  asyncId : String
  payload : Option JsError := none
  error : Bool := false
deriving DecidableEq, Repr

/-- `cleanAsyncState`'s returned action (`async.ts` line 105). -/
def cleanAsyncStateAction (id : String) : Action :=
  { type := .CLEAN_ASYNC_STATE, asyncId := id }

/-- `releaseAsyncState` (`async.ts` lines 114-116). -/
def releaseAsyncState (id : String) : Action :=
  { type := .RELEASE_ASYNC_STATE, asyncId := id }

/-- `resetAsyncState` (`async.ts` lines 123-125). -/
def resetAsyncState (id : String) : Action :=
  { type := .RESET_ASYNC_STATE, asyncId := id }

/-- `retainAsyncState` (`async.ts` lines 139-141). -/
def retainAsyncState (id : String) : Action :=
  { type := .RETAIN_ASYNC_STATE, asyncId := id }

/-- `finishAsync` (`async.ts` lines 150-152). -/
def finishAsync (id : String) : Action :=
  { type := .ASYNC_FINISHED, asyncId := id }

/-- `rejectAsync` (`async.ts` lines 161-168). -/
def rejectAsync (id : String) (error : JsError) : Action :=
  { type := .ASYNC_REJECTED, asyncId := id, payload := some error, error := true }

/-- `resolveAsync` (`async.ts` lines 176-178). -/
def resolveAsync (id : String) : Action :=
  { type := .ASYNC_RESOLVED, asyncId := id }

/-- The inline action dispatched by `startAsync` (`async.ts` line 224). -/
def asyncStartedAction (id : String) : Action :=
  { type := .ASYNC_STARTED, asyncId := id }

/-- Modelled from the spec: one record of the Status Store (§3
`AsyncCallRecord`); the reducer holding these is not among the sources. -/
structure AsyncRecord where
  status : AsyncStatus
  retainCount : Nat
  error : Option JsError
deriving DecidableEq, Repr

/-- The record of an identifier the store has never seen (treated as absent). -/
def emptyRecord : AsyncRecord :=
  { status := .NOT_STARTED, retainCount := 0, error := none }

/-- Whether a status is terminal (spec §4.4: RESOLVED, REJECTED or FINISHED). -/
def isTerminal (st : AsyncStatus) : Bool :=
  match st with
  | .RESOLVED => true
  | .REJECTED => true
  | .FINISHED => true
  | _ => false

/-- Modelled from the spec: the Status Store reducer (the source imports it
from `../reducers/async`, which is not among the sources). Transitions follow
the state machine of §4.3, retain/release counting follows §4.4, and
`CLEAN_ASYNC_STATE` is guarded by the retain count as documented on the
`cleanAsyncState` action creator in the source ("If the retain count is
greater than zero nothing will happen"). Events whose from-state does not
match the table leave the record unchanged (§4.3: "no arbitrary jumps"). -/
def reduceRecord (r : AsyncRecord) (a : Action) : AsyncRecord :=
  match a.type with
  | .ASYNC_STARTED =>
    match r.status with
    | .NOT_STARTED => { r with status := .PENDING }
    | .FINISHED => { r with status := .PENDING }
    | _ => r
  | .ASYNC_RESOLVED =>
    match r.status with
    | .PENDING => { r with status := .RESOLVED }
    | _ => r
  | .ASYNC_REJECTED =>
    match r.status with
    | .PENDING => { r with status := .REJECTED, error := a.payload }
    | _ => r
  | .ASYNC_FINISHED =>
    match r.status with
    | .PENDING => { r with status := .FINISHED }
    | .RESOLVED => { r with status := .FINISHED }
    | .REJECTED => { r with status := .FINISHED }
    | _ => r
  | .RESET_ASYNC_STATE =>
    match r.status with
    | .RESOLVED => { r with status := .NOT_STARTED, error := none }
    | .REJECTED => { r with status := .NOT_STARTED, error := none }
    | .FINISHED => { r with status := .NOT_STARTED, error := none }
    | _ => r
  | .RETAIN_ASYNC_STATE => { r with retainCount := r.retainCount + 1 }
  | .RELEASE_ASYNC_STATE =>
    let r' := { r with retainCount := r.retainCount - 1 }
    if r'.retainCount = 0 && isTerminal r'.status then emptyRecord else r'
  | .CLEAN_ASYNC_STATE =>
    if r.retainCount = 0 then emptyRecord else r

/-- Modelled from the spec: the store folds each dispatched action into the
record of the action's id, leaving other ids alone (§4.3: "all
identifier-scoped, independent state machines per id"). -/
def reduceStore (store : String → AsyncRecord) (a : Action) : String → AsyncRecord :=
  fun j => if j = a.asyncId then reduceRecord (store j) a else store j

/-- A live `setTimeout` callback scheduled by `startAsync`'s `finally`. -/
structure Timer where
  handle : Nat
  id : String
  delay : Nat
deriving DecidableEq, Repr

/-- An in-flight chained promise built by `startAsync` (the `b` of
`async.ts` lines 228-247), waiting for its underlying promise to settle. -/
structure Chain where
  handle : Nat
  id : String
deriving DecidableEq, Repr

/-- The whole mutable state of the module: the (modelled) Status Store, the
two module-level maps `asyncCallCache` and `pendingCleanCallbacks`, the live
timers and chained promises of the runtime, and the two counters. -/
structure GState where
  store : String → AsyncRecord
  cache : String → Option Nat
  timerMap : String → Option Nat
  activeTimers : List Timer
  chains : List Chain
  nextAsyncId : Nat
  nextHandle : Nat

/-- The state at module load: empty maps, no timers, counter at 0. -/
def initState : GState :=
  { store := fun _ => emptyRecord
    cache := fun _ => none
    timerMap := fun _ => none
    activeTimers := []
    chains := []
    nextAsyncId := 0
    nextHandle := 0 }

/-- Dispatching an action updates the Status Store. -/
def dispatch (s : GState) (a : Action) : GState :=
  { s with store := reduceStore s.store a }

/-- `genAsyncId` (`async.ts` lines 81-83): returns the id string built from
the current counter and the incremented counter. -/
def genAsyncId (n : Nat) : String × Nat :=
  ("async-" ++ toString n, n + 1)

/-- `const id = asyncId || genAsyncId()` (`async.ts` line 199): JavaScript
`||` falls through on the empty string, which is falsy. -/
def resolveId (asyncId : Option String) (n : Nat) : String × Nat :=
  match asyncId with
  | some i => if i = "" then genAsyncId n else (i, n)
  | none => genAsyncId n

/-- The error thrown at `async.ts` lines 206-208. -/
def forkError (id : String) : JsError :=
  { message := "Attempted to fork off an existing async call (" ++ id ++
      ") but promise is missing from cache." }

/-- `CLEAN_DELAY` (`async.ts` line 65). -/
def CLEAN_DELAY : Nat := 1000

/-- `clearTimeout(pendingCleanCallbacks[id])`: deactivates the timer whose
handle the map holds for `id` (a no-op when the map has no entry, as
`clearTimeout(undefined)` is). It does not delete the map entry. -/
def clearTimeoutFor (s : GState) (id : String) : GState :=
  match s.timerMap id with
  | some th => { s with activeTimers := s.activeTimers.filter (fun t => t.handle != th) }
  | none => s

/-- The first argument of `startAsync`: an already-started promise or a
thunk of deferred work (`PromiseLike<T> | PromiseThunk<T>`). -/
inductive ThunkArg
  | rawPromise (h : Nat)
  | thunk
deriving DecidableEq, Repr

/-- `isPromise(thunk)` (`async.ts` lines 85-88). -/
def ThunkArg.isRaw : ThunkArg → Bool
  | .rawPromise _ => true
  | .thunk => false

/-- The value `startAsync` returns: a promise handle with its `id` property
attached (`AsyncCallPromise`, `async.ts` lines 42-44 and 249-250). -/
structure Handle where
  promise : Nat
  id : String
deriving DecidableEq, Repr

/-- What a (non-throwing) call to `startAsync` produces: the handle, the
actions it dispatched, and whether it logged the duplicate-promise warning
(`async.ts` lines 211-219). -/
structure StartResult where
  handle : Handle
  trace : List Action
  warned : Bool
deriving DecidableEq, Repr

/-- `startAsync` (`async.ts` lines 194-254). The returned state reflects all
mutations the call performed; the `Except` value is the return value or the
thrown error. In the fresh path the unit of work is invoked and its chained
promise `b` is allocated a fresh handle, registered in `chains` (its
`then`/`catch`/`finally` callbacks have not yet run) and in the call cache. -/
def startAsync (t : ThunkArg) (asyncId : Option String) (s : GState) :
    GState × Except JsError StartResult :=
  let p := resolveId asyncId s.nextAsyncId
  let id := p.1
  let s0 := { s with nextAsyncId := p.2 }
  if (s0.store id).status = AsyncStatus.PENDING then
    match s0.cache id with
    | none => (s0, .error (forkError id))
    | some h =>
      (s0, .ok { handle := { promise := h, id := id }, trace := [], warned := t.isRaw })
  else
    let s1 := dispatch s0 (asyncStartedAction id)
    let s2 := clearTimeoutFor s1 id
    let b := s2.nextHandle
    let s3 := { s2 with
      nextHandle := b + 1
      chains := { handle := b, id := id } :: s2.chains
      cache := fun j => if j = id then some b else s2.cache j }
    (s3, .ok { handle := { promise := b, id := id }, trace := [asyncStartedAction id],
               warned := false })

/-- The outcome the chained promise delivers to whoever awaits the handle:
the `then` callback returns the original result, the `catch` callback
re-throws the original error (`async.ts` lines 231-238), and `finally`
passes the outcome through. -/
def chainOutcome (o : Except JsError Unit) : Except JsError Unit :=
  match o with
  | .ok v => .ok v
  | .error e => .error e

/-- What settling a tracked chain produces: the new state, the actions its
callbacks dispatched (in order), and the outcome surfaced to the caller. -/
structure SettleResult where
  state : GState
  acts : List Action
  outcome : Except JsError Unit

/-- The underlying promise of tracked chain `h` settles with outcome `o`,
running the continuations of `async.ts` lines 230-247: `then` dispatches
`resolveAsync` (or `catch` dispatches `rejectAsync` and re-throws), then
`finally` deletes the call-cache entry, dispatches `finishAsync`, and stores
a fresh `setTimeout` handle in `pendingCleanCallbacks[id]` with delay
`CLEAN_DELAY`. `none` when no tracked chain has handle `h`. -/
def settleChain (h : Nat) (o : Except JsError Unit) (s : GState) : Option SettleResult :=
  match s.chains.find? (fun c => c.handle = h) with
  | none => none
  | some c =>
    let id := c.id
    let a1 := match o with
      | .ok _ => resolveAsync id
      | .error e => rejectAsync id e
    let s1 := dispatch s a1
    let s2 := { s1 with cache := fun j => if j = id then none else s1.cache j }
    let s3 := dispatch s2 (finishAsync id)
    let th := s3.nextHandle
    let s4 := { s3 with
      nextHandle := th + 1
      timerMap := fun j => if j = id then some th else s3.timerMap j
      activeTimers := { handle := th, id := id, delay := CLEAN_DELAY } :: s3.activeTimers
      chains := s3.chains.filter (fun c2 => c2.handle != h) }
    some { state := s4, acts := [a1, finishAsync id], outcome := chainOutcome o }

/-- `cleanAsyncState` (`async.ts` lines 102-106): clears the timer whose
handle the map holds for `id`, deletes the map entry, and returns the
`CLEAN_ASYNC_STATE` action. It reads neither the Status Store nor the call
cache. -/
def cleanAsyncState (id : String) (s : GState) : GState × Action :=
  let s1 := clearTimeoutFor s id
  let s2 := { s1 with timerMap := fun j => if j = id then none else s1.timerMap j }
  (s2, cleanAsyncStateAction id)

/-- The events of the small-step semantics: the public operations of the
module plus the two environment events (a tracked promise settling, an armed
timer firing). -/
inductive Event
  | start (t : ThunkArg) (asyncId : Option String)
  | retain (id : String)
  | release (id : String)
  | reset (id : String)
  | clean (id : String)
  | settle (h : Nat) (o : Except JsError Unit)
  | fire (th : Nat)

/-- One step: perform the event, returning the new state and the actions
dispatched during the step. A `fire` event consumes the timer and runs
`() => dispatch(actionCreators.cleanAsyncState(id))` (`async.ts` line 244). -/
def step (s : GState) (e : Event) : GState × List Action :=
  match e with
  | .start t aid =>
    let r := startAsync t aid s
    (r.1, match r.2 with
      | .ok res => res.trace
      | .error _ => [])
  | .retain id => (dispatch s (retainAsyncState id), [retainAsyncState id])
  | .release id => (dispatch s (releaseAsyncState id), [releaseAsyncState id])
  | .reset id => (dispatch s (resetAsyncState id), [resetAsyncState id])
  | .clean id =>
    let r := cleanAsyncState id s
    (dispatch r.1 r.2, [r.2])
  | .settle h o =>
    match settleChain h o s with
    | some r => (r.state, r.acts)
    | none => (s, [])
  | .fire th =>
    match s.activeTimers.find? (fun t => t.handle = th) with
    | some t =>
      let s1 := { s with activeTimers := s.activeTimers.filter (fun u => u.handle != th) }
      let r := cleanAsyncState t.id s1
      (dispatch r.1 r.2, [r.2])
    | none => (s, [])

/-- One step carrying the accumulated trace along. -/
def stepTrace (p : GState × List Action) (e : Event) : GState × List Action :=
  let r := step p.1 e
  (r.1, p.2 ++ r.2)

/-- Run a list of events from the initial state, accumulating the trace of
all dispatched actions. -/
def run (es : List Event) : GState × List Action :=
  es.foldl stepTrace (initState, [])

/-- The canonical decimal digit list of a natural number (used to reason
about the identifier strings `genAsyncId` builds with `Nat.repr`). -/
def canonDigits (n : Nat) : List Char :=
  if _h : n < 10 then [Nat.digitChar n]
  else canonDigits (n / 10) ++ [Nat.digitChar (n % 10)]
termination_by n
decreasing_by
  exact Nat.div_lt_self (by omega) (by omega)

/-- Value of a decimal digit character. -/
def digitVal (c : Char) : Nat := c.toNat - 48

/-- Fold a digit list back into a number. -/
def valFrom (a : Nat) (l : List Char) : Nat :=
  l.foldl (fun acc c => 10 * acc + digitVal c) a

/-- One direction of the spec's cache invariant: every id whose status is
PENDING has a call-cache entry. -/
def PendingHasCache (s : GState) : Prop :=
  ∀ id, (s.store id).status = AsyncStatus.PENDING → (s.cache id).isSome

/-- Trace facts holding at every reachable state: every live timer's id has
already seen a finished transition, every id in a terminal status has
already seen a finished transition, and every in-flight tracked chain's id
has already seen a started transition. -/
def TraceInv (s : GState) (tr : List Action) : Prop :=
  (∀ t ∈ s.activeTimers, finishAsync t.id ∈ tr)
  ∧ (∀ id, isTerminal (s.store id).status = true → finishAsync id ∈ tr)
  ∧ (∀ c ∈ s.chains, asyncStartedAction c.id ∈ tr)

theorem toDigitsCore_eq_canon :
    ∀ n fuel ds, n < fuel → Nat.toDigitsCore 10 fuel n ds = canonDigits n ++ ds := by
  intro n
  induction n using Nat.strong_induction_on with
  | _ n ih =>
    intro fuel ds hfu
    match fuel, hfu with
    | fuel + 1, hfu =>
      rw [Nat.toDigitsCore]
      by_cases h10 : n < 10
      · have hz : n / 10 = 0 := Nat.div_eq_of_lt h10
        rw [if_pos hz, canonDigits]
        simp [h10, Nat.mod_eq_of_lt h10]
      · have hz : ¬ n / 10 = 0 := by
          rw [Nat.div_eq_zero_iff (by omega)]
          omega
        have hc : canonDigits n = canonDigits (n / 10) ++ [Nat.digitChar (n % 10)] := by
          rw [canonDigits, dif_neg h10]
        rw [if_neg hz]
        have hlt : n / 10 < n := Nat.div_lt_self (by omega) (by omega)
        rw [ih (n / 10) hlt fuel _ (by omega), hc]
        simp

theorem repr_eq_canon (n : Nat) : Nat.repr n = (canonDigits n).asString := by
  rw [Nat.repr, Nat.toDigits, toDigitsCore_eq_canon n (n + 1) [] (Nat.lt_succ_self n),
    List.append_nil]

theorem digitVal_digitChar : ∀ d, d < 10 → digitVal (Nat.digitChar d) = d := by decide

theorem valFrom_canon : ∀ n, valFrom 0 (canonDigits n) = n := by
  intro n
  induction n using Nat.strong_induction_on with
  | _ n ih =>
    rw [canonDigits]
    by_cases h10 : n < 10
    · rw [dif_pos h10]
      simp [valFrom, digitVal_digitChar n h10]
    · rw [dif_neg h10]
      have hlt : n / 10 < n := Nat.div_lt_self (by omega) (by omega)
      rw [valFrom, List.foldl_append]
      have hmod : n % 10 < 10 := Nat.mod_lt _ (by omega)
      simp only [List.foldl_cons, List.foldl_nil]
      rw [show (List.foldl (fun acc c => 10 * acc + digitVal c) 0 (canonDigits (n / 10))) = n / 10
        from ih (n / 10) hlt]
      rw [digitVal_digitChar _ hmod]
      omega

theorem canonDigits_injective (n m : Nat) (h : canonDigits n = canonDigits m) : n = m := by
  rw [← valFrom_canon n, ← valFrom_canon m, h]

theorem nat_repr_injective (n m : Nat) (h : Nat.repr n = Nat.repr m) : n = m := by
  apply canonDigits_injective
  have := congrArg String.data h
  rwa [repr_eq_canon, repr_eq_canon, List.asString, List.asString] at this

theorem startAsync_pending (s : GState) (t : ThunkArg) (i : String) (h : Nat)
    (hne : i ≠ "") (hp : (s.store i).status = AsyncStatus.PENDING)
    (hc : s.cache i = some h) :
    startAsync t (some i) s =
      (s, .ok { handle := { promise := h, id := i }, trace := [], warned := t.isRaw }) := by
  simp [startAsync, resolveId, hne, hp, hc]

theorem startAsync_fresh_snd (s : GState) (t : ThunkArg) (aid : Option String)
    (hst : ¬ (s.store (resolveId aid s.nextAsyncId).1).status = AsyncStatus.PENDING) :
    (startAsync t aid s).2 =
      .ok { handle := { promise := s.nextHandle, id := (resolveId aid s.nextAsyncId).1 },
            trace := [asyncStartedAction (resolveId aid s.nextAsyncId).1], warned := false } := by
  simp [startAsync, hst, clearTimeoutFor, dispatch]
  cases htm : ({ s with nextAsyncId := (resolveId aid s.nextAsyncId).2 } : GState).timerMap
      (resolveId aid s.nextAsyncId).1 <;> simp [htm]

theorem startAsync_fresh_store (s : GState) (t : ThunkArg) (aid : Option String)
    (hst : ¬ (s.store (resolveId aid s.nextAsyncId).1).status = AsyncStatus.PENDING) :
    (startAsync t aid s).1.store =
      reduceStore s.store (asyncStartedAction (resolveId aid s.nextAsyncId).1) := by
  simp [startAsync, hst, clearTimeoutFor, dispatch]
  cases htm : ({ s with nextAsyncId := (resolveId aid s.nextAsyncId).2 } : GState).timerMap
      (resolveId aid s.nextAsyncId).1 <;> simp [htm]

theorem startAsync_fresh_cache (s : GState) (t : ThunkArg) (aid : Option String)
    (hst : ¬ (s.store (resolveId aid s.nextAsyncId).1).status = AsyncStatus.PENDING) :
    (startAsync t aid s).1.cache =
      fun j => if j = (resolveId aid s.nextAsyncId).1 then some s.nextHandle else s.cache j := by
  simp [startAsync, hst, clearTimeoutFor, dispatch]
  cases htm : ({ s with nextAsyncId := (resolveId aid s.nextAsyncId).2 } : GState).timerMap
      (resolveId aid s.nextAsyncId).1 <;> simp [htm]

theorem startAsync_fresh_chains (s : GState) (t : ThunkArg) (aid : Option String)
    (hst : ¬ (s.store (resolveId aid s.nextAsyncId).1).status = AsyncStatus.PENDING) :
    (startAsync t aid s).1.chains =
      { handle := s.nextHandle, id := (resolveId aid s.nextAsyncId).1 } :: s.chains := by
  simp [startAsync, hst, clearTimeoutFor, dispatch]
  cases htm : ({ s with nextAsyncId := (resolveId aid s.nextAsyncId).2 } : GState).timerMap
      (resolveId aid s.nextAsyncId).1 <;> simp [htm]

theorem startAsync_fresh_cancels (s : GState) (t : ThunkArg) (aid : Option String)
    (hst : ¬ (s.store (resolveId aid s.nextAsyncId).1).status = AsyncStatus.PENDING)
    (th : Nat) (hm : s.timerMap (resolveId aid s.nextAsyncId).1 = some th) :
    ∀ u ∈ (startAsync t aid s).1.activeTimers, u.handle ≠ th := by
  intro u hu
  simp [startAsync, hst, clearTimeoutFor, dispatch] at hu
  rw [show ({ s with nextAsyncId := (resolveId aid s.nextAsyncId).2 } : GState).timerMap = s.timerMap
    from rfl, hm] at hu
  simp at hu
  exact hu.2

theorem genAsyncId_ne (n m : Nat) (h : n ≠ m) : (genAsyncId n).1 ≠ (genAsyncId m).1 := by
  intro hc
  apply h
  apply nat_repr_injective
  have hd := congrArg String.data hc
  simp only [genAsyncId] at hd
  have h2 : ("async-".data ++ (toString n).data) = ("async-".data ++ (toString m).data) := hd
  have h3 := List.append_cancel_left h2
  show Nat.repr n = Nat.repr m
  exact String.ext h3

theorem settleChain_shape (s : GState) (h : Nat) (c : Chain) (o : Except JsError Unit)
    (hf : s.chains.find? (fun x => x.handle = h) = some c) :
    ∃ r : SettleResult, settleChain h o s = some r ∧
      r.acts = [(match o with
        | .ok _ => resolveAsync c.id
        | .error e => rejectAsync c.id e), finishAsync c.id] ∧
      r.outcome = chainOutcome o ∧
      r.state.timerMap = (fun j => if j = c.id then some s.nextHandle else s.timerMap j) ∧
      r.state.activeTimers =
        { handle := s.nextHandle, id := c.id, delay := CLEAN_DELAY } :: s.activeTimers ∧
      r.state.cache c.id = none := by
  unfold settleChain
  rw [hf]
  cases o <;>
    exact ⟨_, rfl, rfl, rfl, rfl, rfl, by simp [dispatch]⟩

theorem fire_clean (s : GState) (th : Nat) (t : Timer)
    (hf : s.activeTimers.find? (fun u => u.handle = th) = some t)
    (hr : (s.store t.id).retainCount = 0) :
    (step s (.fire th)).1.store t.id = emptyRecord ∧
    (step s (.fire th)).1.timerMap t.id = none ∧
    (step s (.fire th)).2 = [cleanAsyncStateAction t.id] := by
  simp only [step]
  rw [hf]
  refine ⟨?_, ?_, rfl⟩
  · simp [cleanAsyncState, clearTimeoutFor, dispatch, reduceStore, reduceRecord,
      cleanAsyncStateAction]
    cases htm : s.timerMap t.id <;> simp [htm, hr]
  · simp [cleanAsyncState, clearTimeoutFor, dispatch]

/-- C1: a `startAsync` call with an explicit id whose status is PENDING and
whose id has a call-cache entry returns the cached promise unchanged (same
state, empty trace, handle = cached entry decorated with the id); in
particular two `startAsync` calls in immediate succession with the same
explicit id and a thunk return the identical handle while the first call is
still pending, the second call dispatching nothing. -/
theorem c1_pending_join_dedup :
    (∀ (s : GState) (t : ThunkArg) (i : String) (h : Nat),
      i ≠ "" → (s.store i).status = AsyncStatus.PENDING → s.cache i = some h →
      startAsync t (some i) s =
        (s, .ok { handle := { promise := h, id := i }, trace := [], warned := t.isRaw }))
    ∧
    (∀ (s : GState) (t t' : ThunkArg) (i : String),
      i ≠ "" →
      ((s.store i).status = AsyncStatus.NOT_STARTED ∨ (s.store i).status = AsyncStatus.FINISHED) →
      ∀ r : StartResult, (startAsync t (some i) s).2 = Except.ok r →
        ((((startAsync t (some i) s).1.store i).status = AsyncStatus.PENDING) ∧
         startAsync t' (some i) (startAsync t (some i) s).1 =
           ((startAsync t (some i) s).1,
             Except.ok { handle := r.handle, trace := [], warned := t'.isRaw }))) := by
  constructor
  · intro s t i h hne hp hc
    exact startAsync_pending s t i h hne hp hc
  · intro s t t' i hne hst0 r hr
    have hri : resolveId (some i) s.nextAsyncId = (i, s.nextAsyncId) := by
      simp [resolveId, hne]
    have hst : ¬ (s.store (resolveId (some i) s.nextAsyncId).1).status = AsyncStatus.PENDING := by
      rw [hri]
      rcases hst0 with h1 | h1 <;> simp [h1]
    have hsnd := startAsync_fresh_snd s t (some i) hst
    have hstore := startAsync_fresh_store s t (some i) hst
    have hcache := startAsync_fresh_cache s t (some i) hst
    rw [hri] at hsnd hstore hcache
    rw [hsnd] at hr
    injection hr with hres
    have hpend : (((startAsync t (some i) s).1.store i).status = AsyncStatus.PENDING) := by
      rw [hstore]
      rcases hst0 with h1 | h1 <;> simp [reduceStore, reduceRecord, asyncStartedAction, h1]
    refine ⟨hpend, ?_⟩
    have hc2 : (startAsync t (some i) s).1.cache i = some s.nextHandle := by
      rw [hcache]
      simp
    rw [startAsync_pending _ t' i s.nextHandle hne hpend hc2, ← hres]

/-- Witness for C1 at concrete inputs: joining the pending call started by
`start .thunk "a"` from the initial state returns its handle `⟨0, "a"⟩` with
no dispatch, and the immediate double call from the initial state returns
the identical handle both times. -/
theorem c1_pending_join_dedup_w :
    (((run [Event.start .thunk (some "a")]).1.store "a").status = AsyncStatus.PENDING
      ∧ (run [Event.start .thunk (some "a")]).1.cache "a" = some 0
      ∧ startAsync .thunk (some "a") (run [Event.start .thunk (some "a")]).1 =
          ((run [Event.start .thunk (some "a")]).1,
            Except.ok { handle := { promise := 0, id := "a" }, trace := [], warned := false }))
    ∧ (((startAsync .thunk (some "a") initState).1.store "a").status = AsyncStatus.PENDING
      ∧ startAsync .thunk (some "a") (startAsync .thunk (some "a") initState).1 =
          ((startAsync .thunk (some "a") initState).1,
            Except.ok { handle := { promise := 0, id := "a" }, trace := [], warned := false })) :=
  ⟨⟨by decide, by decide,
    c1_pending_join_dedup.1 (run [Event.start .thunk (some "a")]).1 .thunk "a" 0
      (by decide) (by decide) (by decide)⟩,
   c1_pending_join_dedup.2 initState .thunk .thunk "a" (by decide) (Or.inl (by decide))
      { handle := { promise := 0, id := "a" },
        trace := [asyncStartedAction "a"], warned := false } rfl⟩

/-- C2: when the resolved id's status is PENDING but the call cache has no
entry for it, `startAsync` throws (the fatal desynchronization error) and
performs no state change, hence dispatches no transition and returns no
handle. -/
theorem c2_pending_cache_missing_throws (s : GState) (t : ThunkArg) (i : String)
    (hne : i ≠ "") (hp : (s.store i).status = AsyncStatus.PENDING)
    (hc : s.cache i = none) :
    startAsync t (some i) s = (s, Except.error (forkError i)) := by
  simp [startAsync, resolveId, hne, hp, hc]

/-- Witness for C2 at a concrete desynchronized state: status PENDING for
"a" with an empty call cache makes `startAsync` throw. -/
theorem c2_pending_cache_missing_throws_w :
    startAsync .thunk (some "a")
        { initState with store := fun j =>
            if j = "a" then { status := AsyncStatus.PENDING, retainCount := 0, error := none }
            else emptyRecord } =
      ({ initState with store := fun j =>
            if j = "a" then { status := AsyncStatus.PENDING, retainCount := 0, error := none }
            else emptyRecord }, Except.error (forkError "a")) :=
  c2_pending_cache_missing_throws _ .thunk "a" (by decide) (by decide) (by decide)

/-- C9: every fresh call's handle carries an `id` property equal to the
identifier used for the call: the explicit id when a non-empty one is
supplied, the generated id when none is supplied. -/
theorem c9_handle_carries_id :
    (∀ (s : GState) (t : ThunkArg) (i : String), i ≠ "" →
      ¬ (s.store i).status = AsyncStatus.PENDING →
      ∃ r : StartResult, (startAsync t (some i) s).2 = Except.ok r ∧ r.handle.id = i)
    ∧ (∀ (s : GState) (t : ThunkArg),
      ¬ (s.store (genAsyncId s.nextAsyncId).1).status = AsyncStatus.PENDING →
      ∃ r : StartResult, (startAsync t none s).2 = Except.ok r ∧
        r.handle.id = (genAsyncId s.nextAsyncId).1) := by
  constructor
  · intro s t i hne hst0
    have hri : resolveId (some i) s.nextAsyncId = (i, s.nextAsyncId) := by
      simp [resolveId, hne]
    have hst : ¬ (s.store (resolveId (some i) s.nextAsyncId).1).status = AsyncStatus.PENDING := by
      rw [hri]
      exact hst0
    refine ⟨_, startAsync_fresh_snd s t (some i) hst, ?_⟩
    rw [hri]
  · intro s t hst0
    have hst : ¬ (s.store (resolveId none s.nextAsyncId).1).status = AsyncStatus.PENDING := hst0
    exact ⟨_, startAsync_fresh_snd s t none hst, rfl⟩

/-- Witness for C9 at the initial state: an explicit id "a" yields a handle
with id "a"; no id yields a handle with the generated id "async-0". -/
theorem c9_handle_carries_id_w :
    (∃ r : StartResult, (startAsync .thunk (some "a") initState).2 = Except.ok r ∧
      r.handle.id = "a")
    ∧ (∃ r : StartResult, (startAsync .thunk none initState).2 = Except.ok r ∧
      r.handle.id = (genAsyncId initState.nextAsyncId).1) :=
  ⟨c9_handle_carries_id.1 initState .thunk "a" (by decide) (by decide),
   c9_handle_carries_id.2 initState .thunk (by decide)⟩

/-- C8: every identifier the generator produces is the fixed tag "async-"
followed by the decimal counter value, the generator's only effect is
incrementing the counter by one, and distinct counter values (as any two
distinct calls within one process have) give distinct identifiers. -/
theorem c8_genAsyncId_unique :
    (∀ n : Nat, genAsyncId n = ("async-" ++ Nat.repr n, n + 1))
    ∧ (∀ n m : Nat, n ≠ m → (genAsyncId n).1 ≠ (genAsyncId m).1) :=
  ⟨fun _ => rfl, genAsyncId_ne⟩

/-- Witness for C8: the first two generated identifiers differ. -/
theorem c8_genAsyncId_unique_w :
    (0 : Nat) ≠ 1 ∧ (genAsyncId 0).1 ≠ (genAsyncId 1).1 :=
  ⟨by decide, c8_genAsyncId_unique.2 0 1 (by decide)⟩

/-- C7: when a tracked unit of work fails, settling its chain dispatches the
`rejectAsync` action carrying the error (and then `finishAsync`), and the
outcome the returned handle delivers to the caller is the same error,
re-thrown rather than swallowed. -/
theorem c7_rejection_reported_and_rethrown (s : GState) (h : Nat) (c : Chain) (e : JsError)
    (hf : s.chains.find? (fun x => x.handle = h) = some c) :
    ∃ r : SettleResult, settleChain h (Except.error e) s = some r ∧
      r.acts = [rejectAsync c.id e, finishAsync c.id] ∧
      rejectAsync c.id e =
        { type := .ASYNC_REJECTED, asyncId := c.id, payload := some e, error := true } ∧
      r.outcome = Except.error e := by
  obtain ⟨r, hr, hacts, hout, -⟩ := settleChain_shape s h c (Except.error e) hf
  exact ⟨r, hr, hacts, rfl, hout⟩

/-- Witness for C7: the call started from the initial state fails with
"boom"; the rejected transition carries the error and the handle re-throws
it. -/
theorem c7_rejection_reported_and_rethrown_w :
    ∃ r : SettleResult,
      settleChain 0 (Except.error { message := "boom" })
          (run [Event.start .thunk (some "a")]).1 = some r ∧
      r.acts = [rejectAsync "a" { message := "boom" }, finishAsync "a"] ∧
      rejectAsync "a" { message := "boom" } =
        { type := .ASYNC_REJECTED, asyncId := "a",
          payload := some { message := "boom" }, error := true } ∧
      r.outcome = Except.error { message := "boom" } :=
  c7_rejection_reported_and_rethrown (run [Event.start .thunk (some "a")]).1 0
    { handle := 0, id := "a" } { message := "boom" } (by decide)

/-- Counterexample to C3 as stated: after `start "a"`, `retain "a"` and the
call settling, the retain count of "a" is 1 at the moment of the finished
transition, yet the cleanup callback IS armed (timer handle 1 is live with
the map referencing it) — the code arms the timer unconditionally, not
"only if the retain count is zero". -/
theorem c3_armed_despite_retain_cx :
    (((run [Event.start .thunk (some "a"), Event.retain "a",
        Event.settle 0 (Except.ok ())]).1.store "a").retainCount = 1)
    ∧ ((run [Event.start .thunk (some "a"), Event.retain "a",
        Event.settle 0 (Except.ok ())]).1.timerMap "a" = some 1)
    ∧ ({ handle := 1, id := "a", delay := CLEAN_DELAY } ∈
        (run [Event.start .thunk (some "a"), Event.retain "a",
          Event.settle 0 (Except.ok ())]).1.activeTimers) := by decide

/-- C3 (amended): on every finished transition the delayed cleanup callback
for the id is armed unconditionally — regardless of the retain count — with
the fixed configured delay `CLEAN_DELAY` = 1000 time-units, and the call
cache entry is removed at finish time; when the callback fires it removes
the pending-callbacks entry and (the retain count being zero) the record. -/
theorem c3_finish_arms_unconditionally :
    CLEAN_DELAY = 1000
    ∧ (∀ (s : GState) (h : Nat) (c : Chain) (o : Except JsError Unit),
        s.chains.find? (fun x => x.handle = h) = some c →
        ∃ r : SettleResult, settleChain h o s = some r ∧
          r.state.timerMap c.id = some s.nextHandle ∧
          { handle := s.nextHandle, id := c.id, delay := CLEAN_DELAY } ∈ r.state.activeTimers ∧
          r.state.cache c.id = none)
    ∧ (∀ (s : GState) (th : Nat) (t : Timer),
        s.activeTimers.find? (fun u => u.handle = th) = some t →
        (s.store t.id).retainCount = 0 →
        (step s (.fire th)).1.store t.id = emptyRecord ∧
        (step s (.fire th)).1.timerMap t.id = none ∧
        (step s (.fire th)).2 = [cleanAsyncStateAction t.id]) := by
  refine ⟨rfl, ?_, fire_clean⟩
  intro s h c o hf
  obtain ⟨r, hr, -, -, htm, hat, hca⟩ := settleChain_shape s h c o hf
  refine ⟨r, hr, ?_, ?_, hca⟩
  · rw [htm]
    simp
  · rw [hat]
    exact List.mem_cons_self _ _

/-- Witness for C3 (amended): settling the call started from the initial
state arms timer 1 for "a" with delay 1000 and clears the cache entry (even
with no retain); firing that timer removes the record and the map entry. -/
theorem c3_finish_arms_unconditionally_w :
    (∃ r : SettleResult,
      settleChain 0 (Except.ok ()) (run [Event.start .thunk (some "a")]).1 = some r ∧
      r.state.timerMap "a" = some 1 ∧
      { handle := 1, id := "a", delay := CLEAN_DELAY } ∈ r.state.activeTimers ∧
      r.state.cache "a" = none)
    ∧ ((step (run [Event.start .thunk (some "a"), Event.settle 0 (Except.ok ())]).1
          (.fire 1)).1.store "a" = emptyRecord ∧
       (step (run [Event.start .thunk (some "a"), Event.settle 0 (Except.ok ())]).1
          (.fire 1)).1.timerMap "a" = none ∧
       (step (run [Event.start .thunk (some "a"), Event.settle 0 (Except.ok ())]).1
          (.fire 1)).2 = [cleanAsyncStateAction "a"]) :=
  ⟨c3_finish_arms_unconditionally.2.1 (run [Event.start .thunk (some "a")]).1 0
      { handle := 0, id := "a" } (Except.ok ()) (by decide),
   c3_finish_arms_unconditionally.2.2
      (run [Event.start .thunk (some "a"), Event.settle 0 (Except.ok ())]).1 1
      { handle := 1, id := "a", delay := 1000 } (by decide) (by decide)⟩

/-- Counterexample to C4 as stated: `start "a"`, then a manual `clean "a"`
while the call is still pending, then `start "a"` again; when the two
in-flight chains settle, each arms a timer, and the second arming overwrites
the map entry WITHOUT cancelling the first timer — the final state holds two
active timers (handles 2 and 3) for the single id "a". -/
theorem c4_two_active_timers_cx :
    ((run [Event.start .thunk (some "a"), Event.clean "a", Event.start .thunk (some "a"),
        Event.settle 0 (Except.ok ()), Event.settle 1 (Except.ok ())]).1.activeTimers
      = [{ handle := 3, id := "a", delay := 1000 }, { handle := 2, id := "a", delay := 1000 }])
    ∧ ¬ (∀ t1 ∈ (run [Event.start .thunk (some "a"), Event.clean "a",
            Event.start .thunk (some "a"), Event.settle 0 (Except.ok ()),
            Event.settle 1 (Except.ok ())]).1.activeTimers,
         ∀ t2 ∈ (run [Event.start .thunk (some "a"), Event.clean "a",
            Event.start .thunk (some "a"), Event.settle 0 (Except.ok ()),
            Event.settle 1 (Except.ok ())]).1.activeTimers,
         t1.id = t2.id → t1 = t2) := by decide

/-- C4 (amended): starting a fresh call for an id cancels the pending
cleanup timer the map references for that id before the work is invoked,
and the pending-callbacks map holds at most one reference per id — arming on
finish replaces the map entry; but arming does not cancel a previously armed
timer, which stays active (the cons leaves the old timers live), so two
active timers for one id are reachable. -/
theorem c4_start_cancels_arming_replaces :
    (∀ (s : GState) (t : ThunkArg) (aid : Option String),
      ¬ (s.store (resolveId aid s.nextAsyncId).1).status = AsyncStatus.PENDING →
      ∀ th : Nat, s.timerMap (resolveId aid s.nextAsyncId).1 = some th →
      ∀ u ∈ (startAsync t aid s).1.activeTimers, u.handle ≠ th)
    ∧ (∀ (s : GState) (h : Nat) (c : Chain) (o : Except JsError Unit),
        s.chains.find? (fun x => x.handle = h) = some c →
        ∃ r : SettleResult, settleChain h o s = some r ∧
          r.state.timerMap = (fun j => if j = c.id then some s.nextHandle else s.timerMap j) ∧
          r.state.activeTimers =
            { handle := s.nextHandle, id := c.id, delay := CLEAN_DELAY } :: s.activeTimers) := by
  constructor
  · intro s t aid hst th hm
    exact startAsync_fresh_cancels s t aid hst th hm
  · intro s h c o hf
    obtain ⟨r, hr, -, -, htm, hat, -⟩ := settleChain_shape s h c o hf
    exact ⟨r, hr, htm, hat⟩

/-- Witness for C4 (amended): restarting "a" after its first call finished
cancels the armed timer 1; settling the fresh call arms a new timer and
replaces the map entry. -/
theorem c4_start_cancels_arming_replaces_w :
    (∀ u ∈ (startAsync .thunk (some "a")
        (run [Event.start .thunk (some "a"), Event.settle 0 (Except.ok ())]).1).1.activeTimers,
      u.handle ≠ 1)
    ∧ (∃ r : SettleResult,
        settleChain 0 (Except.ok ()) (run [Event.start .thunk (some "a")]).1 = some r ∧
        r.state.timerMap = (fun j => if j = "a" then some 1
          else (run [Event.start .thunk (some "a")]).1.timerMap j) ∧
        r.state.activeTimers = [{ handle := 1, id := "a", delay := CLEAN_DELAY }]) :=
  ⟨c4_start_cancels_arming_replaces.1
      (run [Event.start .thunk (some "a"), Event.settle 0 (Except.ok ())]).1 .thunk (some "a")
      (by decide) 1 (by decide),
   c4_start_cancels_arming_replaces.2 (run [Event.start .thunk (some "a")]).1 0
      { handle := 0, id := "a" } (Except.ok ()) (by decide)⟩

/-- C10: `cleanAsyncState` cancels the referenced timer and removes the
pending-callbacks entry unconditionally — its timer effects and returned
action are independent of the store (hence of any retain count) — and it is
idempotent: a second application leaves the timer state unchanged and
returns the same `CLEAN_ASYNC_STATE` action. -/
theorem c10_cleanAsyncState_unconditional_idempotent :
    (∀ (s : GState) (id : String),
      (cleanAsyncState id s).1.timerMap id = none
      ∧ (∀ th : Nat, s.timerMap id = some th →
          ∀ u ∈ (cleanAsyncState id s).1.activeTimers, u.handle ≠ th)
      ∧ (cleanAsyncState id s).2 = cleanAsyncStateAction id)
    ∧ (∀ (s : GState) (st : String → AsyncRecord) (id : String),
      (cleanAsyncState id { s with store := st }).1.timerMap
          = (cleanAsyncState id s).1.timerMap
      ∧ (cleanAsyncState id { s with store := st }).1.activeTimers
          = (cleanAsyncState id s).1.activeTimers
      ∧ (cleanAsyncState id { s with store := st }).2 = (cleanAsyncState id s).2)
    ∧ (∀ (s : GState) (id : String),
      (cleanAsyncState id (cleanAsyncState id s).1).1.timerMap
          = (cleanAsyncState id s).1.timerMap
      ∧ (cleanAsyncState id (cleanAsyncState id s).1).1.activeTimers
          = (cleanAsyncState id s).1.activeTimers
      ∧ (cleanAsyncState id (cleanAsyncState id s).1).2 = (cleanAsyncState id s).2) := by
  refine ⟨?_, ?_, ?_⟩
  · intro s id
    refine ⟨by simp [cleanAsyncState], ?_, rfl⟩
    intro th hm u hu
    simp [cleanAsyncState, clearTimeoutFor, hm] at hu
    exact hu.2
  · intro s st id
    refine ⟨?_, ?_, rfl⟩ <;>
      (simp [cleanAsyncState, clearTimeoutFor]
       cases htm : s.timerMap id <;> simp [htm])
  · intro s id
    have h2 : (cleanAsyncState id s).1.timerMap id = none := by simp [cleanAsyncState]
    refine ⟨?_, ?_, rfl⟩
    · funext j
      simp [cleanAsyncState, clearTimeoutFor, h2]
      intro hj
      rw [hj]
      exact (by simp [cleanAsyncState] : (cleanAsyncState id s).1.timerMap id = none).symm
    · simp [cleanAsyncState, clearTimeoutFor, h2]

/-- Witness for C10 at a state with an armed timer for "a": the entry is
removed, the timer cancelled, the action returned. -/
theorem c10_cleanAsyncState_unconditional_idempotent_w :
    ((cleanAsyncState "a"
        (run [Event.start .thunk (some "a"), Event.settle 0 (Except.ok ())]).1).1.timerMap "a"
      = none)
    ∧ (∀ u ∈ (cleanAsyncState "a"
        (run [Event.start .thunk (some "a"), Event.settle 0 (Except.ok ())]).1).1.activeTimers,
        u.handle ≠ 1) :=
  ⟨(c10_cleanAsyncState_unconditional_idempotent.1
      (run [Event.start .thunk (some "a"), Event.settle 0 (Except.ok ())]).1 "a").1,
   (c10_cleanAsyncState_unconditional_idempotent.1
      (run [Event.start .thunk (some "a"), Event.settle 0 (Except.ok ())]).1 "a").2.1 1
      (by decide)⟩

theorem startAsync_pending_state (s : GState) (t : ThunkArg) (aid : Option String)
    (hp : (s.store (resolveId aid s.nextAsyncId).1).status = AsyncStatus.PENDING) :
    (startAsync t aid s).1 = { s with nextAsyncId := (resolveId aid s.nextAsyncId).2 } := by
  simp only [startAsync]
  rw [if_pos hp]
  cases hc : ({ s with nextAsyncId := (resolveId aid s.nextAsyncId).2 } : GState).cache
      (resolveId aid s.nextAsyncId).1 <;> simp [hc]

theorem reduceRecord_pending_rev (r : AsyncRecord) (a : Action)
    (hne : a.type ≠ ActionType.ASYNC_STARTED)
    (h : (reduceRecord r a).status = AsyncStatus.PENDING) :
    r.status = AsyncStatus.PENDING := by
  cases ha : a.type <;> rw [ha] at hne <;> try exact absurd rfl hne
  all_goals
    cases hs : r.status <;> simp [reduceRecord, ha, hs] at h ⊢
  all_goals
    first
    | rfl
    | (revert h
       split <;> simp [emptyRecord]
       all_goals intro h
       all_goals simp_all)

theorem clearTimeoutFor_store (s : GState) (id : String) :
    (clearTimeoutFor s id).store = s.store := by
  unfold clearTimeoutFor
  cases s.timerMap id <;> rfl

theorem clearTimeoutFor_cache (s : GState) (id : String) :
    (clearTimeoutFor s id).cache = s.cache := by
  unfold clearTimeoutFor
  cases s.timerMap id <;> rfl

theorem cleanAsyncState_store (s : GState) (id : String) :
    (cleanAsyncState id s).1.store = s.store := by
  simp [cleanAsyncState, clearTimeoutFor_store]

theorem cleanAsyncState_cache (s : GState) (id : String) :
    (cleanAsyncState id s).1.cache = s.cache := by
  simp [cleanAsyncState, clearTimeoutFor_cache]

theorem dispatch_preserves_pending_cache (s : GState) (a : Action)
    (hne : a.type ≠ ActionType.ASYNC_STARTED) (hinv : PendingHasCache s) :
    PendingHasCache (dispatch s a) := by
  intro id h
  show (s.cache id).isSome
  apply hinv
  simp only [dispatch, reduceStore] at h
  by_cases hid : id = a.asyncId
  · rw [if_pos hid] at h
    exact reduceRecord_pending_rev _ _ hne h
  · rwa [if_neg hid] at h

theorem settleChain_state_proj (s : GState) (h : Nat) (c : Chain) (o : Except JsError Unit)
    (hf : s.chains.find? (fun x => x.handle = h) = some c) :
    ∃ r : SettleResult, settleChain h o s = some r ∧
      r.state.store = reduceStore (reduceStore s.store (match o with
        | .ok _ => resolveAsync c.id
        | .error e => rejectAsync c.id e)) (finishAsync c.id) ∧
      r.state.cache = (fun j => if j = c.id then none else s.cache j) := by
  unfold settleChain
  rw [hf]
  cases o <;> exact ⟨_, rfl, rfl, rfl⟩

theorem step_preserves_pending_cache (s : GState) (e : Event)
    (hinv : PendingHasCache s) : PendingHasCache (step s e).1 := by
  cases e with
  | start t aid =>
    by_cases hp : (s.store (resolveId aid s.nextAsyncId).1).status = AsyncStatus.PENDING
    · intro id h
      rw [show (step s (.start t aid)).1 = (startAsync t aid s).1 from rfl,
        startAsync_pending_state s t aid hp] at h ⊢
      exact hinv id h
    · intro id h
      rw [show (step s (.start t aid)).1 = (startAsync t aid s).1 from rfl] at h ⊢
      rw [startAsync_fresh_cache s t aid hp]
      rw [startAsync_fresh_store s t aid hp] at h
      by_cases hid : id = (resolveId aid s.nextAsyncId).1
      · simp [hid]
      · simp only [hid, if_neg]
        apply hinv
        simp only [reduceStore, asyncStartedAction] at h
        rwa [if_neg hid] at h
  | retain i => exact dispatch_preserves_pending_cache s _ (by simp [retainAsyncState]) hinv
  | release i => exact dispatch_preserves_pending_cache s _ (by simp [releaseAsyncState]) hinv
  | reset i => exact dispatch_preserves_pending_cache s _ (by simp [resetAsyncState]) hinv
  | clean i =>
    intro id h
    simp only [step] at h ⊢
    have h1 : PendingHasCache (cleanAsyncState i s).1 := by
      intro j hj
      rw [cleanAsyncState_cache]
      apply hinv
      rwa [cleanAsyncState_store] at hj
    exact dispatch_preserves_pending_cache _ _ (by simp [cleanAsyncState, cleanAsyncStateAction]) h1 id h
  | settle h o =>
    cases hf : s.chains.find? (fun c => c.handle = h) with
    | none =>
      intro id hid
      simp only [step] at hid ⊢
      rw [show settleChain h o s = none by unfold settleChain; rw [hf]] at hid ⊢
      exact hinv id hid
    | some c =>
      cases o with
      | ok v =>
        obtain ⟨r, hr, hstore, hcache⟩ := settleChain_state_proj s h c (Except.ok v) hf
        intro id hid
        simp only [step] at hid ⊢
        rw [hr] at hid ⊢
        rw [hstore] at hid
        rw [hcache]
        by_cases hi : id = c.id
        · exfalso
          rw [hi] at hid
          simp only [reduceStore, resolveAsync, finishAsync, if_pos rfl] at hid
          cases hs : (s.store c.id).status <;>
            simp [reduceRecord, resolveAsync, finishAsync, hs] at hid
        · simp only [hi, ite_false, if_neg]
          apply hinv
          simp [reduceStore, resolveAsync, finishAsync, hi] at hid
          exact hid
      | error e =>
        obtain ⟨r, hr, hstore, hcache⟩ := settleChain_state_proj s h c (Except.error e) hf
        intro id hid
        simp only [step] at hid ⊢
        rw [hr] at hid ⊢
        rw [hstore] at hid
        rw [hcache]
        by_cases hi : id = c.id
        · exfalso
          rw [hi] at hid
          simp only [reduceStore, rejectAsync, finishAsync, if_pos rfl] at hid
          cases hs : (s.store c.id).status <;>
            simp [reduceRecord, rejectAsync, finishAsync, hs] at hid
        · simp only [hi, ite_false, if_neg]
          apply hinv
          simp [reduceStore, rejectAsync, finishAsync, hi] at hid
          exact hid
  | fire th =>
    cases hf : s.activeTimers.find? (fun u => u.handle = th) with
    | none =>
      intro id hid
      simp only [step] at hid ⊢
      rw [hf] at hid ⊢
      exact hinv id hid
    | some t =>
      intro id hid
      simp only [step] at hid ⊢
      rw [hf] at hid ⊢
      have h1 : PendingHasCache (cleanAsyncState t.id
          { s with activeTimers := s.activeTimers.filter (fun u => u.handle != th) }).1 := by
        intro j hj
        rw [cleanAsyncState_cache]
        apply hinv
        rwa [cleanAsyncState_store] at hj
      exact dispatch_preserves_pending_cache _ _
        (by simp [cleanAsyncState, cleanAsyncStateAction]) h1 id hid


theorem foldl_pending_cache (es : List Event) :
    ∀ p : GState × List Action, PendingHasCache p.1 →
      PendingHasCache (es.foldl stepTrace p).1 := by
  induction es with
  | nil => exact fun p hp => hp
  | cons e es ih =>
    intro p hp
    exact ih (stepTrace p e) (step_preserves_pending_cache p.1 e hp)

theorem run_pending_cache (es : List Event) : PendingHasCache (run es).1 :=
  foldl_pending_cache es (initState, []) (fun id h => by simp [initState, emptyRecord] at h)

theorem reduceRecord_started_terminal_rev (r : AsyncRecord) (i : String)
    (h : isTerminal ((reduceRecord r (asyncStartedAction i)).status) = true) :
    isTerminal r.status = true := by
  cases hs : r.status <;> simp [reduceRecord, asyncStartedAction, isTerminal, hs] at h ⊢

theorem reduceRecord_terminal_rev (r : AsyncRecord) (a : Action)
    (h1 : a.type ≠ ActionType.ASYNC_STARTED)
    (h2 : a.type ≠ ActionType.ASYNC_RESOLVED)
    (h3 : a.type ≠ ActionType.ASYNC_REJECTED)
    (h4 : a.type ≠ ActionType.ASYNC_FINISHED)
    (h : isTerminal ((reduceRecord r a).status) = true) :
    isTerminal r.status = true := by
  cases ha : a.type <;> rw [ha] at h1 h2 h3 h4
  case ASYNC_STARTED => exact absurd rfl h1
  case ASYNC_RESOLVED => exact absurd rfl h2
  case ASYNC_REJECTED => exact absurd rfl h3
  case ASYNC_FINISHED => exact absurd rfl h4
  case RETAIN_ASYNC_STATE =>
    simp only [reduceRecord, ha] at h
    exact h
  case RESET_ASYNC_STATE =>
    cases hs : r.status <;> simp [reduceRecord, ha, hs, isTerminal] at h ⊢
  case RELEASE_ASYNC_STATE =>
    simp only [reduceRecord, ha] at h
    revert h
    split
    · simp [emptyRecord, isTerminal]
    · exact fun h => h
  case CLEAN_ASYNC_STATE =>
    simp only [reduceRecord, ha] at h
    revert h
    split
    · simp [emptyRecord, isTerminal]
    · exact fun h => h

theorem cleanAsyncState_timers_sub (s : GState) (i : String) :
    ∀ u ∈ (cleanAsyncState i s).1.activeTimers, u ∈ s.activeTimers := by
  intro u hu
  simp only [cleanAsyncState, clearTimeoutFor] at hu
  revert hu
  cases htm : s.timerMap i <;> simp
  intro hu _
  exact hu

theorem startAsync_fresh_timers_sub (s : GState) (t : ThunkArg) (aid : Option String)
    (hst : ¬ (s.store (resolveId aid s.nextAsyncId).1).status = AsyncStatus.PENDING) :
    ∀ u ∈ (startAsync t aid s).1.activeTimers, u ∈ s.activeTimers := by
  intro u hu
  simp [startAsync, hst, clearTimeoutFor, dispatch] at hu
  revert hu
  cases htm : ({ s with nextAsyncId := (resolveId aid s.nextAsyncId).2 } : GState).timerMap
      (resolveId aid s.nextAsyncId).1 <;> simp [htm]
  intro hu _
  exact hu


theorem cleanAsyncState_chains (s : GState) (i : String) :
    (cleanAsyncState i s).1.chains = s.chains := by
  simp only [cleanAsyncState, clearTimeoutFor]
  cases s.timerMap i <;> rfl

theorem settleChain_more_proj (s : GState) (h : Nat) (c : Chain) (o : Except JsError Unit)
    (hf : s.chains.find? (fun x => x.handle = h) = some c) :
    ∃ r : SettleResult, settleChain h o s = some r ∧
      r.state.store = reduceStore (reduceStore s.store (match o with
        | .ok _ => resolveAsync c.id
        | .error e => rejectAsync c.id e)) (finishAsync c.id) ∧
      r.state.activeTimers =
        { handle := s.nextHandle, id := c.id, delay := CLEAN_DELAY } :: s.activeTimers ∧
      r.state.chains = s.chains.filter (fun c2 => c2.handle != h) ∧
      r.acts = [(match o with
        | .ok _ => resolveAsync c.id
        | .error e => rejectAsync c.id e), finishAsync c.id] := by
  unfold settleChain
  rw [hf]
  cases o <;> exact ⟨_, rfl, rfl, rfl, rfl, rfl⟩

theorem dispatch_preserves_trace_inv (s : GState) (a : Action) (tr acts : List Action)
    (h1 : a.type ≠ ActionType.ASYNC_STARTED)
    (h2 : a.type ≠ ActionType.ASYNC_RESOLVED)
    (h3 : a.type ≠ ActionType.ASYNC_REJECTED)
    (h4 : a.type ≠ ActionType.ASYNC_FINISHED)
    (hinv : TraceInv s tr) : TraceInv (dispatch s a) (tr ++ acts) := by
  obtain ⟨hT, hS, hC⟩ := hinv
  refine ⟨fun u hu => List.mem_append_left _ (hT u hu), ?_,
    fun ch hch => List.mem_append_left _ (hC ch hch)⟩
  intro id hterm
  apply List.mem_append_left
  apply hS
  simp only [dispatch, reduceStore] at hterm
  by_cases hid : id = a.asyncId
  · rw [if_pos hid] at hterm
    exact reduceRecord_terminal_rev _ _ h1 h2 h3 h4 hterm
  · rwa [if_neg hid] at hterm

theorem cleanAsyncState_preserves_trace_inv (s : GState) (i : String) (tr : List Action)
    (hinv : TraceInv s tr) : TraceInv (cleanAsyncState i s).1 tr := by
  obtain ⟨hT, hS, hC⟩ := hinv
  exact ⟨fun u hu => hT u (cleanAsyncState_timers_sub s i u hu),
    fun id hterm => hS id (by rwa [cleanAsyncState_store] at hterm),
    fun ch hch => hC ch (by rwa [cleanAsyncState_chains] at hch)⟩

theorem step_preserves_trace_inv (s : GState) (tr : List Action) (e : Event)
    (hinv : TraceInv s tr) : TraceInv (step s e).1 (tr ++ (step s e).2) := by
  obtain ⟨hT, hS, hC⟩ := hinv
  cases e with
  | start t aid =>
    by_cases hp : (s.store (resolveId aid s.nextAsyncId).1).status = AsyncStatus.PENDING
    · have hst := startAsync_pending_state s t aid hp
      refine ⟨?_, ?_, ?_⟩
      · intro u hu
        rw [show (step s (.start t aid)).1 = (startAsync t aid s).1 from rfl, hst] at hu
        exact List.mem_append_left _ (hT u hu)
      · intro id hterm
        rw [show (step s (.start t aid)).1 = (startAsync t aid s).1 from rfl, hst] at hterm
        exact List.mem_append_left _ (hS id hterm)
      · intro ch hch
        rw [show (step s (.start t aid)).1 = (startAsync t aid s).1 from rfl, hst] at hch
        exact List.mem_append_left _ (hC ch hch)
    · have hsnd := startAsync_fresh_snd s t aid hp
      have htrace : (step s (.start t aid)).2 =
          [asyncStartedAction (resolveId aid s.nextAsyncId).1] := by
        simp only [step, hsnd]
      refine ⟨?_, ?_, ?_⟩
      · intro u hu
        exact List.mem_append_left _ (hT u (startAsync_fresh_timers_sub s t aid hp u hu))
      · intro id hterm
        rw [show (step s (.start t aid)).1 = (startAsync t aid s).1 from rfl,
          startAsync_fresh_store s t aid hp] at hterm
        simp only [reduceStore, asyncStartedAction] at hterm
        by_cases hid : id = (resolveId aid s.nextAsyncId).1
        · rw [if_pos hid] at hterm
          apply List.mem_append_left
          apply hS
          exact reduceRecord_started_terminal_rev _ _ hterm
        · rw [if_neg hid] at hterm
          exact List.mem_append_left _ (hS id hterm)
      · intro ch hch
        rw [show (step s (.start t aid)).1 = (startAsync t aid s).1 from rfl,
          startAsync_fresh_chains s t aid hp] at hch
        rcases List.mem_cons.mp hch with hch | hch
        · rw [hch, htrace]
          apply List.mem_append_right
          simp
        · exact List.mem_append_left _ (hC ch hch)
  | retain i =>
    exact dispatch_preserves_trace_inv s _ tr _ (by simp [retainAsyncState])
      (by simp [retainAsyncState]) (by simp [retainAsyncState]) (by simp [retainAsyncState])
      ⟨hT, hS, hC⟩
  | release i =>
    exact dispatch_preserves_trace_inv s _ tr _ (by simp [releaseAsyncState])
      (by simp [releaseAsyncState]) (by simp [releaseAsyncState]) (by simp [releaseAsyncState])
      ⟨hT, hS, hC⟩
  | reset i =>
    exact dispatch_preserves_trace_inv s _ tr _ (by simp [resetAsyncState])
      (by simp [resetAsyncState]) (by simp [resetAsyncState]) (by simp [resetAsyncState])
      ⟨hT, hS, hC⟩
  | clean i =>
    exact dispatch_preserves_trace_inv _ _ tr _ (by simp [cleanAsyncState, cleanAsyncStateAction])
      (by simp [cleanAsyncState, cleanAsyncStateAction])
      (by simp [cleanAsyncState, cleanAsyncStateAction])
      (by simp [cleanAsyncState, cleanAsyncStateAction])
      (cleanAsyncState_preserves_trace_inv s i tr ⟨hT, hS, hC⟩)
  | settle h o =>
    cases hf : s.chains.find? (fun c => c.handle = h) with
    | none =>
      have hn : settleChain h o s = none := by
        unfold settleChain
        rw [hf]
      refine ⟨?_, ?_, ?_⟩ <;> simp only [step, hn]
      · exact fun u hu => List.mem_append_left _ (hT u hu)
      · exact fun id hterm => List.mem_append_left _ (hS id hterm)
      · exact fun ch hch => List.mem_append_left _ (hC ch hch)
    | some c =>
      obtain ⟨r, hr, hstore, htimers, hchains, hacts⟩ := settleChain_more_proj s h c o hf
      refine ⟨?_, ?_, ?_⟩ <;> simp only [step, hr]
      · intro u hu
        rw [htimers] at hu
        rcases List.mem_cons.mp hu with hu | hu
        · rw [hu, hacts]
          apply List.mem_append_right
          simp
        · exact List.mem_append_left _ (hT u hu)
      · intro id hterm
        rw [hstore] at hterm
        simp only [reduceStore, finishAsync] at hterm
        by_cases hid : id = c.id
        · rw [hacts]
          apply List.mem_append_right
          rw [hid]
          simp
        · rw [if_neg hid] at hterm
          have hterm2 : isTerminal ((s.store id).status) = true := by
            revert hterm
            cases o <;> simp only [resolveAsync, rejectAsync] <;> rw [if_neg hid] <;>
              exact fun hterm => hterm
          exact List.mem_append_left _ (hS id hterm2)
      · intro ch hch
        rw [hchains] at hch
        exact List.mem_append_left _ (hC ch (List.mem_of_mem_filter hch))
  | fire th =>
    cases hf : s.activeTimers.find? (fun u => u.handle = th) with
    | none =>
      refine ⟨?_, ?_, ?_⟩ <;> simp only [step, hf]
      · exact fun u hu => List.mem_append_left _ (hT u hu)
      · exact fun id hterm => List.mem_append_left _ (hS id hterm)
      · exact fun ch hch => List.mem_append_left _ (hC ch hch)
    | some t =>
      have hsub : TraceInv { s with
          activeTimers := s.activeTimers.filter (fun u => u.handle != th) } tr :=
        ⟨fun u hu => hT u (List.mem_of_mem_filter hu), hS, hC⟩
      simp only [step, hf]
      exact dispatch_preserves_trace_inv _ (cleanAsyncStateAction t.id) tr
        [cleanAsyncStateAction t.id]
        (by simp [cleanAsyncStateAction]) (by simp [cleanAsyncStateAction])
        (by simp [cleanAsyncStateAction]) (by simp [cleanAsyncStateAction])
        (cleanAsyncState_preserves_trace_inv _ t.id tr hsub)

theorem foldl_trace_inv (es : List Event) :
    ∀ p : GState × List Action, TraceInv p.1 p.2 →
      TraceInv (es.foldl stepTrace p).1 (es.foldl stepTrace p).2 := by
  induction es with
  | nil => exact fun p hp => hp
  | cons e es ih =>
    intro p hp
    exact ih (stepTrace p e) (step_preserves_trace_inv p.1 p.2 e hp)

theorem run_trace_inv (es : List Event) : TraceInv (run es).1 (run es).2 :=
  foldl_trace_inv es (initState, [])
    ⟨fun u hu => absurd hu (by simp [initState]),
     fun id hterm => by simp [initState, emptyRecord, isTerminal] at hterm,
     fun c hc => absurd hc (by simp [initState])⟩

theorem release_change_needs_terminal (r : AsyncRecord) (i : String)
    (h : (reduceRecord r (releaseAsyncState i)).status ≠ r.status) :
    isTerminal r.status = true := by
  simp only [reduceRecord, releaseAsyncState] at h
  revert h
  split
  · rename_i hcond
    simp only [Bool.and_eq_true, decide_eq_true_eq] at hcond
    intro _
    exact hcond.2
  · exact fun h => absurd rfl h

/-- Counterexample to C5 as stated: after `start "a"` (pending) followed by
a manual `clean "a"`, the status of "a" is NOT_STARTED (the record was
removed) yet the call-cache entry for "a" survives — `cleanAsyncState` never
touches `asyncCallCache` — so "cache entry iff PENDING" fails in this
reachable state. -/
theorem c5_cache_iff_pending_cx :
    ((run [Event.start .thunk (some "a"), Event.clean "a"]).1.cache "a" = some 0)
    ∧ (((run [Event.start .thunk (some "a"), Event.clean "a"]).1.store "a").status
        = AsyncStatus.NOT_STARTED)
    ∧ ¬ (((run [Event.start .thunk (some "a"), Event.clean "a"]).1.cache "a").isSome = true ↔
        ((run [Event.start .thunk (some "a"), Event.clean "a"]).1.store "a").status
          = AsyncStatus.PENDING) := by decide

/-- C5 (amended): one direction of the invariant holds at every state
reachable by public operations and environment events: whenever an id's
status is PENDING, an entry exists in the call cache for that id (the
converse can fail after a manual clean during a pending call). -/
theorem c5_pending_implies_cache (es : List Event) (id : String)
    (h : ((run es).1.store id).status = AsyncStatus.PENDING) :
    ((run es).1.cache id).isSome = true :=
  run_pending_cache es id h

/-- Witness for C5 (amended): after `start "a"` the status is PENDING and
the cache holds an entry. -/
theorem c5_pending_implies_cache_w :
    (((run [Event.start .thunk (some "a")]).1.store "a").status = AsyncStatus.PENDING)
    ∧ ((run [Event.start .thunk (some "a")]).1.cache "a").isSome = true :=
  ⟨by decide, c5_pending_implies_cache [Event.start .thunk (some "a")] "a" (by decide)⟩

/-- C6: transition order for every tracked fresh call — the started
transition is the only action emitted by `startAsync` itself, before any
continuation of the unit of work runs (the chain is still registered
unsettled); settling emits resolved/rejected strictly before finished;
a firing cleanup timer emits its clean action only for an id whose finished
transition is already in the trace; a terminal status (which release-
triggered cleanup requires — release changes a status only when it is
terminal) likewise implies finished is already in the trace. -/
theorem c6_transition_order :
    (∀ (s : GState) (t : ThunkArg) (aid : Option String),
      ¬ (s.store (resolveId aid s.nextAsyncId).1).status = AsyncStatus.PENDING →
      ∃ r : StartResult, (startAsync t aid s).2 = Except.ok r ∧
        r.trace = [asyncStartedAction (resolveId aid s.nextAsyncId).1] ∧
        { handle := r.handle.promise, id := (resolveId aid s.nextAsyncId).1 }
          ∈ (startAsync t aid s).1.chains)
    ∧ (∀ (s : GState) (h : Nat) (c : Chain) (o : Except JsError Unit),
        s.chains.find? (fun x => x.handle = h) = some c →
        ∃ r : SettleResult, settleChain h o s = some r ∧
          r.acts = [(match o with
            | .ok _ => resolveAsync c.id
            | .error e => rejectAsync c.id e), finishAsync c.id])
    ∧ (∀ (es : List Event) (th : Nat) (id : String),
        cleanAsyncStateAction id ∈ (step (run es).1 (.fire th)).2 →
        finishAsync id ∈ (run es).2)
    ∧ (∀ (es : List Event) (id : String),
        isTerminal ((run es).1.store id).status = true → finishAsync id ∈ (run es).2)
    ∧ (∀ (r : AsyncRecord) (i : String),
        (reduceRecord r (releaseAsyncState i)).status ≠ r.status →
        isTerminal r.status = true) := by
  refine ⟨?_, ?_, ?_, fun es id => (run_trace_inv es).2.1 id, release_change_needs_terminal⟩
  · intro s t aid hp
    refine ⟨_, startAsync_fresh_snd s t aid hp, rfl, ?_⟩
    rw [startAsync_fresh_chains s t aid hp]
    exact List.mem_cons_self _ _
  · intro s h c o hf
    obtain ⟨r, hr, hacts, -, -, -⟩ := settleChain_shape s h c o hf
    exact ⟨r, hr, hacts⟩
  · intro es th id hmem
    cases hf : (run es).1.activeTimers.find? (fun u => u.handle = th) with
    | none =>
      rw [show (step (run es).1 (.fire th)).2 = [] by simp only [step, hf]] at hmem
      exact absurd hmem (by simp)
    | some t =>
      rw [show (step (run es).1 (.fire th)).2 = [cleanAsyncStateAction t.id] by
        simp only [step, hf]
        rfl] at hmem
      simp only [List.mem_singleton, cleanAsyncStateAction, Action.mk.injEq] at hmem
      have ht : t ∈ (run es).1.activeTimers := List.mem_of_find?_eq_some hf
      have hfin := (run_trace_inv es).1 t ht
      rw [hmem.2.1]
      exact hfin

/-- Witness for C6 at concrete runs: the fresh start from the initial state
emits exactly the started action with its chain unsettled; settling emits
resolved then finished; after a run that settles "a", the timer clean
action implies finished is in the trace; a rejected run leaves "a" terminal
with finished in the trace; a release that changes a FINISHED status comes
from a terminal status. -/
theorem c6_transition_order_w :
    (∃ r : StartResult, (startAsync .thunk (some "a") initState).2 = Except.ok r ∧
      r.trace = [asyncStartedAction "a"] ∧
      { handle := r.handle.promise, id := "a" }
        ∈ (startAsync .thunk (some "a") initState).1.chains)
    ∧ (∃ r : SettleResult,
        settleChain 0 (Except.ok ()) (run [Event.start .thunk (some "a")]).1 = some r ∧
        r.acts = [resolveAsync "a", finishAsync "a"])
    ∧ (finishAsync "a" ∈ (run [Event.start .thunk (some "a"), Event.settle 0 (Except.ok ())]).2)
    ∧ (finishAsync "a" ∈ (run [Event.start .thunk (some "a"),
        Event.settle 0 (Except.error { message := "boom" })]).2)
    ∧ (isTerminal (AsyncRecord.mk AsyncStatus.FINISHED 1 none).status = true) :=
  ⟨c6_transition_order.1 initState .thunk (some "a") (by decide),
   c6_transition_order.2.1 (run [Event.start .thunk (some "a")]).1 0
     { handle := 0, id := "a" } (Except.ok ()) (by decide),
   c6_transition_order.2.2.1 [Event.start .thunk (some "a"), Event.settle 0 (Except.ok ())]
     1 "a" (by decide),
   c6_transition_order.2.2.2.1 [Event.start .thunk (some "a"),
     Event.settle 0 (Except.error { message := "boom" })] "a" (by decide),
   c6_transition_order.2.2.2.2 (AsyncRecord.mk AsyncStatus.FINISHED 1 none) "a" (by decide)⟩

end ReactAllDay
